import Mathlib

/-!
# Playground page: language catalog loader and execution workflow

A shallow embedding of `src/pages/playground/Playground.jsx`.

* The React hooks (`useState`) become the fields of `State`.
* Calls of the state setters and of `fetch` / `setTimeout` become `Event`s; an
  asynchronous function becomes a pure function from the state it starts in and
  the answers of the remote service to the list of events it produces, in order.
* `throw` / `catch` become the type `Thrown`, one constructor per `throw` site.
* Browser built-ins are modelled after their standards: `Response.ok` (Fetch),
  `atob` (forgiving-base64 decode of the Infra standard), `Array.prototype.sort`
  (stable, ECMAScript 2019).  What the standards leave to the implementation is a
  parameter: the collation of `String.prototype.localeCompare`, the message text
  of the `DOMException` of `atob`, and the outcome of a sort in which some
  comparator calls throw and others do not, which depends on the sequence of
  calls that the engine makes.
-/

namespace Playground

/-! ## Data model -/

/-- An entry of the array answered by `GET /languages`.  The name is optional:
`a.name` is `undefined` for an entry without that property. -/
structure Language where
  id : Int
  name : Option String
  deriving DecidableEq

/-- The body of `GET /submissions/{token}?base64_encoded=true`:
`{ status: { id }, stdout?, stderr?, compile_output? }`.  An absent or `null`
field is `none`. -/
structure ExecutionResult where
  status_id : Int
  stdout : Option String
  stderr : Option String
  compile_output : Option String
  deriving DecidableEq

/-- The `useState` hooks of the component (lines 9-15). -/
structure State where
  code : String
  input : String
  output : String
  languages : List Language
  language : Option Language
  isRunning : Bool
  isDropdownOpen : Bool
  deriving DecidableEq

/-- The initial values of the hooks (lines 9-15). -/
def initialState : State :=
  { code := "", input := "", output := "", languages := [], language := none,
    isRunning := false, isDropdownOpen := false }

/-- What `await fetch(...)` followed by `await response.json()` gives: the promise
of `fetch` rejects with an error carrying `message`, or there is a response with
an HTTP status whose body either fails to be read (error with a message) or is
read as a value of `β`. -/
inductive Fetched (β : Type) where
  | rejected (message : String)
  | response (status : Nat) (body : Except String β)

/-- The body of `GET /languages` once parsed: any JSON value that is not an
array, or an array of entries. -/
inductive LanguagesBody where
  | notArray
  | array (entries : List Language)

/-- Errors thrown inside the `try` blocks, one constructor per origin. -/
inductive Thrown where
  /-- Line 60. -/
  | emptyCode
  /-- Lines 32, 81 and 104. -/
  | httpError (status : Nat)
  /-- Line 117. -/
  | timedOut
  /-- An error raised by the platform (rejected `fetch`, unreadable body,
  `TypeError`, `DOMException` of `atob`), with its message. -/
  | platform (message : String)
  deriving DecidableEq

/-- The `message` property of the thrown error. -/
def Thrown.message : Thrown → String
  | .emptyCode => "Your Code is Empty , Type Something and then try"
  | .httpError status => "HTTP error! status: " ++ toString status
  | .timedOut => "Timed out waiting for code execution"
  | .platform message => message

/-- Observable effects, in the order in which the code performs them. -/
inductive Event where
  | setOutput (text : String)
  | setIsRunning (busy : Bool)
  | setLanguages (catalog : List Language)
  | setLanguage (selected : Option Language)
  /-- The request `GET /languages` (line 20). -/
  | fetchLanguages
  /-- The request `POST /submissions` with `language_id`, `source_code`, `stdin` (line 63). -/
  | submit (language_id : Int) (source_code : String) (stdin : String)
  /-- The `setTimeout` pause of line 91. -/
  | delay (ms : Nat)
  /-- The request `GET /submissions/token?base64_encoded=true` (line 92). -/
  | poll (token : String)
  deriving DecidableEq

/-- The effect of one event on the hooks. -/
def applyEvent (s : State) : Event → State
  | .setOutput text => { s with output := text }
  | .setIsRunning busy => { s with isRunning := busy }
  | .setLanguages catalog => { s with languages := catalog }
  | .setLanguage selected => { s with language := selected }
  | _ => s

/-- The state after a sequence of events. -/
def applyEvents (s : State) (events : List Event) : State :=
  events.foldl applyEvent s

/-- The texts written to the output display, in order. -/
def outputsWritten (events : List Event) : List String :=
  events.filterMap fun e => match e with
    | .setOutput text => some text
    | _ => none

/-- The number of status requests issued. -/
def pollCount (events : List Event) : Nat :=
  events.countP fun e => match e with
    | .poll _ => true
    | _ => false

/-- The number of requests of any kind issued. -/
def requestCount (events : List Event) : Nat :=
  events.countP fun e => match e with
    | .poll _ => true
    | .submit _ _ _ => true
    | .fetchLanguages => true
    | _ => false

/-! ## Platform functions -/

/-- The property `Response.ok`: the status is in the range 200-299. -/
def ok (status : Nat) : Bool := 200 ≤ status && status ≤ 299

/-- JavaScript truthiness of an optional string field: `undefined`, `null` and
the empty string are falsy. -/
def truthy : Option String → Bool
  | none => false
  | some s => s != ""

/-- ASCII whitespace: TAB, LF, FF, CR, SPACE. -/
def isAsciiWhitespace (c : Char) : Bool :=
  c.toNat = 9 || c.toNat = 10 || c.toNat = 12 || c.toNat = 13 || c.toNat = 32

/-- The value of a character of the base64 alphabet. -/
def base64Value (c : Char) : Option Nat :=
  let n := c.toNat
  if 65 ≤ n ∧ n ≤ 90 then some (n - 65)
  else if 97 ≤ n ∧ n ≤ 122 then some (n - 97 + 26)
  else if 48 ≤ n ∧ n ≤ 57 then some (n - 48 + 52)
  else if n = 43 then some 62
  else if n = 47 then some 63
  else none

/-- Step 2 of forgiving-base64 decode: when the length is a multiple of four,
remove one or two trailing `=`. -/
def stripPadding (cs : List Char) : List Char :=
  if cs.length % 4 = 0 then
    match cs.reverse with
    | '=' :: '=' :: rest => rest.reverse
    | '=' :: rest => rest.reverse
    | _ => cs
  else cs

/-- Steps 5-9 of forgiving-base64 decode on the 6-bit values: each group of four
gives three bytes; a final group of three gives two bytes (last two bits
dropped), a final group of two gives one byte (last four bits dropped). -/
def decodeSextets : List Nat → List Nat
  | a :: b :: c :: d :: rest =>
    let n := a * 262144 + b * 4096 + c * 64 + d
    (n / 65536) :: (n / 256 % 256) :: (n % 256) :: decodeSextets rest
  | [a, b, c] =>
    let n := (a * 4096 + b * 64 + c) / 4
    [n / 256, n % 256]
  | [a, b] => [(a * 64 + b) / 16]
  | _ => []

/-- The sextets of a list of characters, or `none` if one of them is not in the
base64 alphabet. -/
def sextets : List Char → Option (List Nat)
  | [] => some []
  | c :: cs =>
    match base64Value c, sextets cs with
    | some v, some vs => some (v :: vs)
    | _, _ => none

/-- The function `atob`: forgiving-base64 decode; `none` stands for the `InvalidCharacterError`
that is thrown.  The result is the byte string, one character per byte. -/
def atob (data : String) : Option String :=
  let cs := stripPadding (data.data.filter fun c => !isAsciiWhitespace c)
  if cs.length % 4 = 1 then none
  else
    match sextets cs with
    | none => none
    | some vs => some (String.mk ((decodeSextets vs).map Char.ofNat))

/-! ## Language catalog loader (lines 17-48) -/

/-- The comparator of lines 36-38, `a.name.localeCompare(b.name)`: a `TypeError`
when `a.name` is `undefined`; the argument `b.name` is converted to a string, so
an absent name is compared as the text `undefined`.  The message of the
`TypeError` is the one of V8; `fetchLanguages` only logs it. -/
def compareNames (localeCompare : String → String → Int) (a b : Language) :
    Except Thrown Int :=
  match a.name with
  | none => .error (.platform "Cannot read properties of undefined (reading 'localeCompare')")
  | some an => .ok (localeCompare an (b.name.getD "undefined"))

/-- The comparator call returns a number, it does not throw. -/
def returns (outcome : Except Thrown Int) : Bool :=
  match outcome with
  | .ok _ => true
  | .error _ => false

/-- No call of the comparator on two elements of the array throws. -/
def neverThrows (cmp : Language → Language → Except Thrown Int) (data : List Language) :
    Bool :=
  data.all fun a => data.all fun b => returns (cmp a b)

/-- Every call of the comparator on two elements of the array throws. -/
def alwaysThrows (cmp : Language → Language → Except Thrown Int) (data : List Language) :
    Bool :=
  data.all fun a => data.all fun b => !returns (cmp a b)

/-- The comparator places `a` before `b`: it returns a number that is not
positive. -/
def precedes (cmp : Language → Language → Except Thrown Int) (a b : Language) : Bool :=
  match cmp a b with
  | .ok c => decide (c ≤ 0)
  | .error _ => false

/-- Insert `a` before the first element that it precedes. -/
def orderedInsert (cmp : Language → Language → Except Thrown Int) (a : Language) :
    List Language → List Language
  | [] => [a]
  | b :: l => if precedes cmp a b then a :: b :: l else b :: orderedInsert cmp a l

/-- The stable sorted order of an array under a comparator that does not throw
on it: elements that compare equal keep their order. -/
def stableOrder (cmp : Language → Language → Except Thrown Int) :
    List Language → List Language
  | [] => []
  | b :: l => orderedInsert cmp b (stableOrder cmp l)

/-- The method `Array.prototype.sort` with a comparator, after ECMAScript, which
leaves the sequence of comparator calls to the engine.  What does not depend on
that sequence is computed here:
* an array of fewer than two elements is returned as it is, without any call;
* when no call on the array can throw, the result is the stable sorted order
  (the one result allowed for a consistent comparator);
* when every call on the array throws, the first call made, whichever it is,
  aborts the sort; the comparator of line 37 throws the same error at every
  call, here taken from the call on the first two elements.
In the remaining case, where some calls throw and others do not, whether the
sort throws depends on which calls the engine makes: the outcome is the
parameter `engine`. -/
def sort (cmp : Language → Language → Except Thrown Int)
    (engine : List Language → Except Thrown (List Language)) (data : List Language) :
    Except Thrown (List Language) :=
  match data with
  | [] => .ok []
  | [a] => .ok [a]
  | a :: b :: rest =>
    if neverThrows cmp (a :: b :: rest) then .ok (stableOrder cmp (a :: b :: rest))
    else if alwaysThrows cmp (a :: b :: rest) then
      match cmp a b with
      | .error e => .error e
      | .ok _ => engine (a :: b :: rest)
    else engine (a :: b :: rest)

/-- Lines 20-38: the value of `sortedLanguages`, or the error thrown before it
is computed. -/
def sortedLanguages (localeCompare : String → String → Int)
    (engine : List Language → Except Thrown (List Language)) :
    Fetched LanguagesBody → Except Thrown (List Language)
  | .rejected message => .error (.platform message)
  | .response status body =>
    if !ok status then .error (.httpError status)
    else
      match body with
      | .error message => .error (.platform message)
      | .ok .notArray => .error (.platform "data.sort is not a function")
      | .ok (.array data) => sort (compareNames localeCompare) engine data

/-- The function `fetchLanguages` (lines 18-45).  `sortedLanguages[0]` is `undefined` on an
empty array: no language is selected. -/
def fetchLanguages (localeCompare : String → String → Int)
    (engine : List Language → Except Thrown (List Language))
    (response : Fetched LanguagesBody) : List Event :=
  .fetchLanguages ::
    match sortedLanguages localeCompare engine response with
    | .ok sorted => [.setLanguages sorted, .setLanguage sorted.head?]
    | .error _ => [.setOutput "Error fetching languages. Please try again later."]

/-! ## Execution workflow (lines 50-135) -/

/-- Line 88. -/
def maxAttempts : Nat := 10

/-- The `while` loop of lines 90-114, started with `remaining = maxAttempts -
attempts`, so that `attempts < maxAttempts` is `0 < remaining`.  The response
read by an iteration is the one numbered by the polls already made, which is
`attempts`: every iteration that does not leave the loop increments it.  The
value is the events issued and either the error thrown or the variables `result`
and `attempts` at the exit of the loop. -/
def pollLoop (token : String) (polls : Nat → Fetched ExecutionResult) :
    Nat → Nat → Option ExecutionResult →
      List Event × Except Thrown (Option ExecutionResult × Nat)
  | 0, attempts, result => ([], .ok (result, attempts))
  | remaining + 1, attempts, _ =>
    match polls attempts with
    | .rejected message => ([.delay 2000, .poll token], .error (.platform message))
    | .response status body =>
      if !ok status then ([.delay 2000, .poll token], .error (.httpError status))
      else
        match body with
        | .error message => ([.delay 2000, .poll token], .error (.platform message))
        | .ok r =>
          if r.status_id > 2 then ([.delay 2000, .poll token], .ok (some r, attempts))
          else
            let rest := pollLoop token polls remaining (attempts + 1) (some r)
            (.delay 2000 :: .poll token :: rest.1, rest.2)

/-- The call `atob(field)` of lines 121-125; `atobMessage` is the message of the
exception of the browser.  (`atob(undefined)` decodes the text `undefined`.) -/
def atobField (atobMessage : String) (field : Option String) : Except Thrown String :=
  match atob (field.getD "undefined") with
  | some text => .ok text
  | none => .error (.platform atobMessage)

/-- Lines 120-128: the text passed to `setOutput`, or the error thrown by `atob`. -/
def display (atobMessage : String) (result : ExecutionResult) : Except Thrown String :=
  if truthy result.stdout then atobField atobMessage result.stdout
  else if truthy result.stderr then
    match atobField atobMessage result.stderr with
    | .ok text => .ok ("Error: " ++ text)
    | .error e => .error e
  else if truthy result.compile_output then
    match atobField atobMessage result.compile_output with
    | .ok text => .ok ("Compilation Error: " ++ text)
    | .error e => .error e
  else .ok "No output generated."

/-- The `try` block of lines 58-128 for the selected `language`: the events
issued and the error thrown, if any.  The body of the submit response is the
text of `token` as the template literal of line 93 renders it.  The branch in
which `result` is still `undefined` after the loop is never taken, since
`maxAttempts` is positive; its message is the one of V8. -/
def runCodeTry (atobMessage : String) (s : State) (language : Language)
    (submission : Fetched String) (polls : Nat → Fetched ExecutionResult) :
    List Event × Option Thrown :=
  if s.code = "" then ([], some .emptyCode)
  else
    match submission with
    | .rejected message =>
      ([.submit language.id s.code s.input], some (.platform message))
    | .response status body =>
      if !ok status then ([.submit language.id s.code s.input], some (.httpError status))
      else
        match body with
        | .error message =>
          ([.submit language.id s.code s.input], some (.platform message))
        | .ok token =>
          let loop := pollLoop token polls maxAttempts 0 none
          match loop.2 with
          | .error e => (.submit language.id s.code s.input :: loop.1, some e)
          | .ok (result, attempts) =>
            if attempts = maxAttempts then
              (.submit language.id s.code s.input :: loop.1, some .timedOut)
            else
              match result with
              | none =>
                (.submit language.id s.code s.input :: loop.1,
                  some (.platform "Cannot read properties of undefined (reading 'stdout')"))
              | some r =>
                match display atobMessage r with
                | .ok text =>
                  (.submit language.id s.code s.input :: (loop.1 ++ [.setOutput text]), none)
                | .error e => (.submit language.id s.code s.input :: loop.1, some e)

/-- The `catch` block of lines 129-131. -/
def catchBlock : Option Thrown → List Event
  | some e => [.setOutput ("Error: " ++ e.message)]
  | none => []

/-- The function `runCode` (lines 50-135): the events of one run started in state `s`, given
the answer to the submit request and the answers to the status requests. -/
def runCode (atobMessage : String) (s : State) (submission : Fetched String)
    (polls : Nat → Fetched ExecutionResult) : List Event :=
  match s.language with
  | none => [.setOutput "Please select a language first."]
  | some language =>
    let body := runCodeTry atobMessage s language submission polls
    .setIsRunning true :: .setOutput "" ::
      (body.1 ++ catchBlock body.2 ++ [.setIsRunning false])

/-- The error thrown in the `try` block of a run, if any. -/
def runCodeThrown (atobMessage : String) (s : State) (submission : Fetched String)
    (polls : Nat → Fetched ExecutionResult) : Option Thrown :=
  match s.language with
  | none => none
  | some language => (runCodeTry atobMessage s language submission polls).2

/-! ## Sample inputs -/

/-- A status body with the given status id and no output field. -/
def pending (id : Int) : Fetched ExecutionResult :=
  .response 200 (.ok { status_id := id, stdout := none, stderr := none, compile_output := none })

/-- The answers of the service given as a list of responses; past its end the
job is reported in the queue (status id 1). -/
def pollsOf (responses : List (Fetched ExecutionResult)) (i : Nat) : Fetched ExecutionResult :=
  responses.getD i (pending 1)

/-- A state with language `C` selected and a one-line program. -/
def readyState : State :=
  { initialState with
    code := "int main(){}", languages := [⟨1, some "C"⟩, ⟨2, some "Python"⟩],
    language := some ⟨1, some "C"⟩ }

/-- Comparison of character lists by code points. -/
def compareChars : List Char → List Char → Int
  | [], [] => 0
  | [], _ :: _ => -1
  | _ :: _, [] => 1
  | a :: as, b :: bs =>
    if a.toNat < b.toNat then -1
    else if b.toNat < a.toNat then 1
    else compareChars as bs

/-- Comparison of strings by code points, a sample collation. -/
def codePointCompare (a b : String) : Int := compareChars a.data b.data

/-- A stand-in for the engine parameter of `sort` in the scenarios below.  None
of them consults it: their arrays have fewer than two entries, or entries that
all have a name, or entries none of which has one. -/
def sampleEngine (_data : List Language) : Except Thrown (List Language) :=
  .error (.platform "Cannot read properties of undefined (reading 'localeCompare')")

/-- A sample message for the exception of `atob`. -/
def sampleAtobMessage : String := "The string to be decoded is not correctly encoded."

/-! ## Predicates on the answers of the service -/

/-- A status response that is HTTP-successful, readable, and reports a job still
queued or running (status id at most 2). -/
def isWaiting : Fetched ExecutionResult → Bool
  | .response status (.ok r) => ok status && decide (r.status_id ≤ 2)
  | _ => false

/-- The events of `n` iterations of the poll loop: a pause and a request each. -/
def pollEvents (token : String) : Nat → List Event
  | 0 => []
  | n + 1 => .delay 2000 :: .poll token :: pollEvents token n

/-- A collation: a comparison function that is consistent in the sense of
ECMAScript (the sign is reversed when the arguments are exchanged, and the
order is transitive). -/
def Collation (localeCompare : String → String → Int) : Prop :=
  (∀ a b, localeCompare a b ≤ 0 ↔ 0 ≤ localeCompare b a) ∧
  (∀ a b c, localeCompare a b ≤ 0 → localeCompare b c ≤ 0 → localeCompare a c ≤ 0)

/-- The order of two entries by name under a collation. -/
def nameLe (localeCompare : String → String → Int) (a b : Language) : Prop :=
  localeCompare (a.name.getD "undefined") (b.name.getD "undefined") ≤ 0

/-- The events that are requests or pauses, not writes to the hooks. -/
def isRequest : Event → Bool
  | .submit _ _ _ => true
  | .delay _ => true
  | .poll _ => true
  | _ => false

/-- The `try` block of `fetchLanguages` throws on this response. -/
def fetchFails (localeCompare : String → String → Int)
    (engine : List Language → Except Thrown (List Language))
    (response : Fetched LanguagesBody) : Bool :=
  match sortedLanguages localeCompare engine response with
  | .error _ => true
  | .ok _ => false

/-- The text shown for a terminal result: the decoded output, or the error of
`atob` as the `catch` block renders it. -/
def shownFor (atobMessage : String) (r : ExecutionResult) : String :=
  match display atobMessage r with
  | .ok text => text
  | .error e => "Error: " ++ e.message

/-! ## Lemmas on events -/

theorem pollCount_pollEvents (token : String) (n : Nat) :
    pollCount (pollEvents token n) = n := by
  induction n with
  | zero => rfl
  | succ n ih =>
    simp only [pollCount] at ih
    simp [pollEvents, pollCount, ih]

theorem outputsWritten_pollEvents (token : String) (n : Nat) :
    outputsWritten (pollEvents token n) = [] := by
  induction n with
  | zero => rfl
  | succ n ih =>
    simp only [outputsWritten] at ih
    simp [pollEvents, outputsWritten, ih]

theorem applyEvents_pollEvents (s : State) (token : String) (n : Nat) :
    applyEvents s (pollEvents token n) = s := by
  induction n with
  | zero => rfl
  | succ n ih =>
    simp only [applyEvents] at ih
    simp [pollEvents, applyEvents, applyEvent, ih]

theorem pollEvents_succ (token : String) (n : Nat) :
    pollEvents token (n + 1) = pollEvents token n ++ [.delay 2000, .poll token] := by
  induction n with
  | zero => rfl
  | succ n ih =>
    have h : pollEvents token (n + 1 + 1) =
        .delay 2000 :: .poll token :: pollEvents token (n + 1) := rfl
    rw [h]
    conv_lhs => rw [ih]
    rfl

theorem applyEvents_append (s : State) (xs ys : List Event) :
    applyEvents s (xs ++ ys) = applyEvents (applyEvents s xs) ys := by
  simp [applyEvents, List.foldl_append]

theorem pollCount_append (xs ys : List Event) :
    pollCount (xs ++ ys) = pollCount xs + pollCount ys := by
  simp [pollCount, List.countP_append]

/-! ## Lemmas on the poll loop -/

/-- While the answers report a waiting job the loop goes on: after `j` such
answers it has issued `j` polls and continues with `attempts` raised by `j`. -/
theorem pollLoop_waiting_prefix (token : String) (polls : Nat → Fetched ExecutionResult) :
    ∀ (j remaining attempts : Nat) (result : Option ExecutionResult),
      j ≤ remaining →
      (∀ i, i < j → isWaiting (polls (attempts + i)) = true) →
      ∃ result', (j = 0 → result' = result) ∧
        pollLoop token polls remaining attempts result =
          (pollEvents token j ++
              (pollLoop token polls (remaining - j) (attempts + j) result').1,
            (pollLoop token polls (remaining - j) (attempts + j) result').2) := by
  intro j
  induction j with
  | zero =>
    intro remaining attempts result _ _
    exact ⟨result, fun _ => rfl, by simp [pollEvents]⟩
  | succ j ih =>
    intro remaining attempts result hj hw
    obtain ⟨n, rfl⟩ : ∃ n, remaining = n + 1 := ⟨remaining - 1, by omega⟩
    have h0 := hw 0 (by omega)
    rw [Nat.add_zero] at h0
    cases hp : polls attempts with
    | rejected message => simp [hp, isWaiting] at h0
    | response status body =>
      cases body with
      | error message => simp [hp, isWaiting] at h0
      | ok r =>
        simp only [hp, isWaiting, Bool.and_eq_true, decide_eq_true_eq] at h0
        obtain ⟨result', _, h⟩ := ih n (attempts + 1) (some r) (by omega)
          (fun i hi => by
            have := hw (i + 1) (by omega)
            rwa [show attempts + (i + 1) = attempts + 1 + i by omega] at this)
        refine ⟨result', fun h => by omega, ?_⟩
        have hid : ¬ r.status_id > 2 := by omega
        rw [show n + 1 - (j + 1) = n - j by omega,
          show attempts + (j + 1) = attempts + 1 + j by omega]
        simp only [pollLoop, hp, h0.1, hid, Bool.not_true, Bool.false_eq_true, if_false, h,
          pollEvents, List.cons_append]

/-- A terminal answer after `j` waiting ones ends the loop after `j + 1` polls
with that answer as `result` and `attempts` raised by `j` only. -/
theorem pollLoop_terminal (token : String) (polls : Nat → Fetched ExecutionResult)
    (j remaining attempts : Nat) (result : Option ExecutionResult)
    (status : Nat) (r : ExecutionResult)
    (hj : j < remaining)
    (hw : ∀ i, i < j → isWaiting (polls (attempts + i)) = true)
    (hp : polls (attempts + j) = .response status (.ok r))
    (hok : ok status = true) (hid : r.status_id > 2) :
    pollLoop token polls remaining attempts result =
      (pollEvents token (j + 1), .ok (some r, attempts + j)) := by
  obtain ⟨result', _, h⟩ :=
    pollLoop_waiting_prefix token polls j remaining attempts result (by omega) hw
  obtain ⟨n, hn⟩ : ∃ n, remaining - j = n + 1 := ⟨remaining - j - 1, by omega⟩
  rw [h, hn]
  have hev := pollEvents_succ token j
  simp [pollLoop, hp, hok, hid, hev]

/-- A non-success HTTP status after `j` waiting answers ends the loop after
`j + 1` polls with the HTTP error. -/
theorem pollLoop_http_error (token : String) (polls : Nat → Fetched ExecutionResult)
    (j remaining attempts : Nat) (result : Option ExecutionResult)
    (status : Nat) (body : Except String ExecutionResult)
    (hj : j < remaining)
    (hw : ∀ i, i < j → isWaiting (polls (attempts + i)) = true)
    (hp : polls (attempts + j) = .response status body)
    (hok : ok status = false) :
    pollLoop token polls remaining attempts result =
      (pollEvents token (j + 1), .error (.httpError status)) := by
  obtain ⟨result', _, h⟩ :=
    pollLoop_waiting_prefix token polls j remaining attempts result (by omega) hw
  obtain ⟨n, hn⟩ : ∃ n, remaining - j = n + 1 := ⟨remaining - j - 1, by omega⟩
  rw [h, hn]
  have hev := pollEvents_succ token j
  simp [pollLoop, hp, hok, hev]

/-- When every answer reports a waiting job the loop ends by its condition, after
`remaining` polls, with `attempts` raised by `remaining`. -/
theorem pollLoop_exhausted (token : String) (polls : Nat → Fetched ExecutionResult)
    (remaining attempts : Nat) (result : Option ExecutionResult)
    (hw : ∀ i, i < remaining → isWaiting (polls (attempts + i)) = true) :
    ∃ result', pollLoop token polls remaining attempts result =
      (pollEvents token remaining, .ok (result', attempts + remaining)) := by
  obtain ⟨result', _, h⟩ :=
    pollLoop_waiting_prefix token polls remaining remaining attempts result (le_refl _) hw
  exact ⟨result', by rw [h]; simp [pollLoop]⟩

/-- Whatever the answers, the loop issues only pauses and polls, at most
`remaining` of each. -/
theorem pollLoop_events (token : String) (polls : Nat → Fetched ExecutionResult) :
    ∀ (remaining attempts : Nat) (result : Option ExecutionResult),
      ∃ m, m ≤ remaining ∧
        (pollLoop token polls remaining attempts result).1 = pollEvents token m := by
  intro remaining
  induction remaining with
  | zero => intro attempts result; exact ⟨0, le_refl _, rfl⟩
  | succ n ih =>
    intro attempts result
    cases hp : polls attempts with
    | rejected message => exact ⟨1, by omega, by simp [pollLoop, hp, pollEvents]⟩
    | response status body =>
      by_cases hok : ok status = true
      · cases body with
        | error message => exact ⟨1, by omega, by simp [pollLoop, hp, hok, pollEvents]⟩
        | ok r =>
          by_cases hid : r.status_id > 2
          · exact ⟨1, by omega, by simp [pollLoop, hp, hok, hid, pollEvents]⟩
          · obtain ⟨m, hm, h⟩ := ih (attempts + 1) (some r)
            exact ⟨m + 1, by omega, by simp [pollLoop, hp, hok, hid, pollEvents, h]⟩
      · exact ⟨1, by omega, by simp [pollLoop, hp, hok, pollEvents]⟩

/-! ## Lemmas on a whole run -/

/-- The text of the `catch` block for an HTTP error, as one literal. -/
theorem http_error_text (x : String) :
    "Error: " ++ ("HTTP error! status: " ++ x) = "Error: HTTP error! status: " ++ x := by
  rw [← String.append_assoc]
  have h : "Error: " ++ "HTTP error! status: " = "Error: HTTP error! status: " := by decide
  rw [h]

/-- The only error of `atobField` is the exception of `atob`. -/
theorem atobField_error (atobMessage : String) (field : Option String) (e : Thrown)
    (h : atobField atobMessage field = .error e) : e = .platform atobMessage := by
  unfold atobField at h
  cases ha : atob (field.getD "undefined") with
  | none =>
    rw [ha] at h
    injection h with h
    exact h.symm
  | some text =>
    rw [ha] at h
    cases h

/-- The only error of `display` is the exception of `atob`. -/
theorem display_error (atobMessage : String) (r : ExecutionResult) (e : Thrown)
    (h : display atobMessage r = .error e) : e = .platform atobMessage := by
  unfold display at h
  split_ifs at h
  · exact atobField_error atobMessage _ e h
  · cases ha : atobField atobMessage r.stderr with
    | ok text => rw [ha] at h; cases h
    | error e' =>
      rw [ha] at h
      injection h with h
      subst h
      exact atobField_error atobMessage _ _ ha
  · cases ha : atobField atobMessage r.compile_output with
    | ok text => rw [ha] at h; cases h
    | error e' =>
      rw [ha] at h
      injection h with h
      subst h
      exact atobField_error atobMessage _ _ ha

/-- The events of a run whose submit succeeds and whose `k`-th status answer is
the first terminal one. -/
theorem runCode_of_terminal (atobMessage : String) (s : State) (lang : Language)
    (status : Nat) (token : String) (polls : Nat → Fetched ExecutionResult)
    (k statusk : Nat) (r : ExecutionResult)
    (hlang : s.language = some lang) (hcode : s.code ≠ "") (hsub : ok status = true)
    (hk : 1 ≤ k) (hk10 : k ≤ maxAttempts)
    (hwait : ∀ i, i + 1 < k → isWaiting (polls i) = true)
    (hterm : polls (k - 1) = .response statusk (.ok r))
    (hok : ok statusk = true) (hid : r.status_id > 2) :
    runCode atobMessage s (.response status (.ok token)) polls =
        .setIsRunning true :: .setOutput "" :: .submit lang.id s.code s.input ::
          (pollEvents token k ++ [.setOutput (shownFor atobMessage r), .setIsRunning false]) ∧
      runCodeThrown atobMessage s (.response status (.ok token)) polls =
        (match display atobMessage r with
          | .ok _ => none
          | .error e => some e) := by
  have hloop : pollLoop token polls maxAttempts 0 none =
      (pollEvents token k, .ok (some r, k - 1)) := by
    have h := pollLoop_terminal token polls (k - 1) maxAttempts 0 none statusk r (by omega)
      (fun i hi => by rw [Nat.zero_add]; exact hwait i (by omega))
      (by rw [Nat.zero_add]; exact hterm) hok hid
    rw [Nat.zero_add, show k - 1 + 1 = k by omega] at h
    exact h
  have hne : k - 1 ≠ maxAttempts := by omega
  constructor
  · simp only [runCode, hlang, runCodeTry, hcode, hsub, hloop, hne, shownFor, if_false,
      Bool.not_true, Bool.false_eq_true]
    cases display atobMessage r <;> simp [catchBlock]
  · simp only [runCodeThrown, hlang, runCodeTry, hcode, hsub, hloop, hne, if_false,
      Bool.not_true, Bool.false_eq_true]
    cases display atobMessage r <;> simp

/-- The state after the events of a run that ends by showing `text`. -/
theorem applyEvents_run (s : State) (lang : Language) (token : String) (k : Nat)
    (text : String) :
    applyEvents s (.setIsRunning true :: .setOutput "" :: .submit lang.id s.code s.input ::
      (pollEvents token k ++ [.setOutput text, .setIsRunning false])) =
      { s with output := text, isRunning := false } := by
  have h : ∀ s0 : State, applyEvents s0 (.setIsRunning true :: .setOutput "" ::
      .submit lang.id s.code s.input ::
        (pollEvents token k ++ [.setOutput text, .setIsRunning false])) =
      applyEvents (applyEvents { s0 with isRunning := true, output := "" }
        (pollEvents token k)) [.setOutput text, .setIsRunning false] := by
    intro s0
    rw [← applyEvents_append]
    rfl
  rw [h, applyEvents_pollEvents]
  rfl

/-- The polls counted in the events of a run with `k` iterations of the loop. -/
theorem pollCount_run (lang : Language) (code input token : String) (k : Nat)
    (tail : List Event) (htail : pollCount tail = 0) :
    pollCount (.setIsRunning true :: .setOutput "" :: .submit lang.id code input ::
      (pollEvents token k ++ tail)) = k := by
  have h : pollCount (.setIsRunning true :: .setOutput "" :: .submit lang.id code input ::
      (pollEvents token k ++ tail)) = pollCount (pollEvents token k ++ tail) := by
    simp [pollCount]
  rw [h, pollCount_append, pollCount_pollEvents, htail]
  rfl

/-! ## Lemmas on requests -/

theorem isRequest_pollEvents (token : String) (n : Nat) :
    (pollEvents token n).all isRequest = true := by
  induction n with
  | zero => rfl
  | succ n ih => simp [pollEvents, isRequest, ih]

theorem outputsWritten_of_requests (events : List Event)
    (h : events.all isRequest = true) : outputsWritten events = [] := by
  induction events with
  | nil => rfl
  | cons e es ih =>
    simp only [List.all_cons, Bool.and_eq_true] at h
    have ih2 := ih h.2
    simp only [outputsWritten] at ih2
    cases e <;> simp_all [outputsWritten, isRequest]

theorem applyEvents_of_requests (s : State) (events : List Event)
    (h : events.all isRequest = true) : applyEvents s events = s := by
  induction events with
  | nil => rfl
  | cons e es ih =>
    simp only [List.all_cons, Bool.and_eq_true] at h
    have ih2 := ih h.2
    simp only [applyEvents] at ih2
    cases e <;> simp_all [applyEvents, applyEvent, isRequest]

/-- The shape of the `try` block: requests only, then either an error is thrown
or one text, the decoding of a result, is written. -/
theorem runCodeTry_shape (atobMessage : String) (s : State) (lang : Language)
    (submission : Fetched String) (polls : Nat → Fetched ExecutionResult) :
    ∃ requests, requests.all isRequest = true ∧
      ((∃ e, runCodeTry atobMessage s lang submission polls = (requests, some e)) ∨
        (∃ r text, display atobMessage r = .ok text ∧
          runCodeTry atobMessage s lang submission polls =
            (requests ++ [.setOutput text], none))) := by
  by_cases hcode : s.code = ""
  · exact ⟨[], rfl, Or.inl ⟨.emptyCode, by simp [runCodeTry, hcode]⟩⟩
  · cases submission with
    | rejected message =>
      exact ⟨[.submit lang.id s.code s.input], rfl,
        Or.inl ⟨.platform message, by simp [runCodeTry, hcode]⟩⟩
    | response status body =>
      by_cases hsub : ok status = true
      · cases body with
        | error message =>
          exact ⟨[.submit lang.id s.code s.input], rfl,
            Or.inl ⟨.platform message, by simp [runCodeTry, hcode, hsub]⟩⟩
        | ok token =>
          obtain ⟨m, _, hm⟩ := pollLoop_events token polls maxAttempts 0 none
          have hreq : (Event.submit lang.id s.code s.input :: pollEvents token m).all isRequest
              = true := by
            simp [isRequest, isRequest_pollEvents]
          refine ⟨.submit lang.id s.code s.input :: pollEvents token m, hreq, ?_⟩
          cases h2 : (pollLoop token polls maxAttempts 0 none).2 with
          | error e =>
            exact Or.inl ⟨e, by simp [runCodeTry, hcode, hsub, h2, hm]⟩
          | ok exit =>
            obtain ⟨result, attempts⟩ := exit
            by_cases hat : attempts = maxAttempts
            · exact Or.inl ⟨.timedOut, by simp [runCodeTry, hcode, hsub, h2, hm, hat]⟩
            · cases result with
              | none =>
                exact Or.inl ⟨_, by simp [runCodeTry, hcode, hsub, h2, hm, hat]; rfl⟩
              | some r =>
                cases hd : display atobMessage r with
                | error e =>
                  exact Or.inl ⟨e, by simp [runCodeTry, hcode, hsub, h2, hm, hat, hd]⟩
                | ok text =>
                  exact Or.inr ⟨r, text, hd,
                    by simp [runCodeTry, hcode, hsub, h2, hm, hat, hd]⟩
      · exact ⟨[.submit lang.id s.code s.input], rfl,
          Or.inl ⟨.httpError status, by simp [runCodeTry, hcode, hsub]⟩⟩

/-! ## Lemmas on the sort -/

theorem nameLe_trans (localeCompare : String → String → Int) (h : Collation localeCompare)
    (a b c : Language) (hab : nameLe localeCompare a b) (hbc : nameLe localeCompare b c) :
    nameLe localeCompare a c :=
  h.2 _ _ _ hab hbc

theorem nameLe_of_not (localeCompare : String → String → Int) (h : Collation localeCompare)
    (a b : Language) (hab : ¬ nameLe localeCompare a b) : nameLe localeCompare b a := by
  unfold nameLe at *
  rw [h.1]
  omega

/-- For a receiver with a name, the comparator places `a` before `b` exactly
when the name of `a` precedes or equals the name of `b`. -/
theorem precedes_compareNames (localeCompare : String → String → Int) (a b : Language)
    (an : String) (ha : a.name = some an) :
    precedes (compareNames localeCompare) a b = true ↔ nameLe localeCompare a b := by
  simp [precedes, compareNames, nameLe, ha]

/-- The comparator returns exactly when the receiver has a name. -/
theorem returns_compareNames (localeCompare : String → String → Int) (a b : Language) :
    returns (compareNames localeCompare a b) = a.name.isSome := by
  unfold compareNames
  cases a.name <;> rfl

/-- Inserting an entry gives a rearrangement. -/
theorem orderedInsert_perm (cmp : Language → Language → Except Thrown Int) (a : Language) :
    ∀ l : List Language, List.Perm (orderedInsert cmp a l) (a :: l) := by
  intro l
  induction l with
  | nil => exact List.Perm.refl _
  | cons b l ih =>
    unfold orderedInsert
    split_ifs
    · exact List.Perm.refl _
    · exact (List.Perm.cons b ih).trans (List.Perm.swap a b l)

/-- Inserting a named entry into a list sorted by name keeps it sorted. -/
theorem orderedInsert_sorted (localeCompare : String → String → Int)
    (h : Collation localeCompare) (a : Language) (an : String) (ha : a.name = some an) :
    ∀ l : List Language, List.Sorted (nameLe localeCompare) l →
      List.Sorted (nameLe localeCompare) (orderedInsert (compareNames localeCompare) a l) := by
  intro l
  induction l with
  | nil => intro _; exact List.sorted_singleton a
  | cons b l ih =>
    intro hs
    have hp := precedes_compareNames localeCompare a b an ha
    unfold orderedInsert
    split_ifs with hc
    · rw [List.Sorted, List.pairwise_cons]
      refine ⟨?_, hs⟩
      intro x hx
      rcases List.mem_cons.1 hx with rfl | hx
      · exact hp.1 hc
      · exact nameLe_trans localeCompare h a b x (hp.1 hc)
          (List.rel_of_sorted_cons hs x hx)
    · rw [List.Sorted, List.pairwise_cons]
      refine ⟨?_, ih hs.of_cons⟩
      intro x hx
      rcases List.mem_cons.1 ((orderedInsert_perm _ a l).subset hx) with rfl | hx
      · exact nameLe_of_not localeCompare h _ b (fun hab => hc (hp.2 hab))
      · exact List.rel_of_sorted_cons hs x hx

theorem stableOrder_perm (cmp : Language → Language → Except Thrown Int) :
    ∀ data : List Language, List.Perm (stableOrder cmp data) data := by
  intro data
  induction data with
  | nil => exact List.Perm.refl _
  | cons b l ih => exact (orderedInsert_perm cmp b _).trans (List.Perm.cons b ih)

/-- The stable order of entries that all have a name is sorted by name. -/
theorem stableOrder_sorted (localeCompare : String → String → Int)
    (h : Collation localeCompare) :
    ∀ data : List Language, (∀ e ∈ data, e.name ≠ none) →
      List.Sorted (nameLe localeCompare) (stableOrder (compareNames localeCompare) data) := by
  intro data
  induction data with
  | nil => intro _; exact List.sorted_nil
  | cons b l ih =>
    intro hnamed
    obtain ⟨bn, hbn⟩ : ∃ bn, b.name = some bn :=
      Option.ne_none_iff_exists'.1 (hnamed b (List.mem_cons_self _ _))
    exact orderedInsert_sorted localeCompare h b bn hbn _
      (ih (fun e he => hnamed e (List.mem_cons_of_mem _ he)))

/-- On entries that all have a name no comparator call throws. -/
theorem neverThrows_named (localeCompare : String → String → Int) (data : List Language)
    (hnamed : ∀ e ∈ data, e.name ≠ none) :
    neverThrows (compareNames localeCompare) data = true := by
  unfold neverThrows
  rw [List.all_eq_true]
  intro a ha
  rw [List.all_eq_true]
  intro b _
  rw [returns_compareNames]
  exact Option.isSome_iff_ne_none.2 (hnamed a ha)

/-- Sorting entries that all have a name gives, whatever the engine, the stable
order, a rearrangement sorted by name. -/
theorem sort_named (localeCompare : String → String → Int) (h : Collation localeCompare)
    (engine : List Language → Except Thrown (List Language))
    (data : List Language) (hnamed : ∀ e ∈ data, e.name ≠ none) :
    ∃ sorted, sort (compareNames localeCompare) engine data = .ok sorted ∧
      List.Perm sorted data ∧ List.Sorted (nameLe localeCompare) sorted := by
  match data, hnamed with
  | [], _ => exact ⟨[], rfl, List.Perm.refl _, List.sorted_nil⟩
  | [a], _ => exact ⟨[a], rfl, List.Perm.refl _, List.sorted_singleton a⟩
  | a :: b :: rest, hnamed =>
    refine ⟨stableOrder (compareNames localeCompare) (a :: b :: rest), ?_,
      stableOrder_perm _ _, stableOrder_sorted localeCompare h _ hnamed⟩
    simp only [sort, neverThrows_named localeCompare _ hnamed, if_true]

/-- Sorting two or more entries none of which has a name throws, whatever the
engine. -/
theorem sort_nameless (localeCompare : String → String → Int)
    (engine : List Language → Except Thrown (List Language)) (a b : Language)
    (rest : List Language) (hnone : ∀ e ∈ a :: b :: rest, e.name = none) :
    ∃ e, sort (compareNames localeCompare) engine (a :: b :: rest) = .error e := by
  have ha : a.name = none := hnone a (List.mem_cons_self _ _)
  have hnever : neverThrows (compareNames localeCompare) (a :: b :: rest) = false := by
    simp [neverThrows, returns_compareNames, ha]
  have halways : alwaysThrows (compareNames localeCompare) (a :: b :: rest) = true := by
    unfold alwaysThrows
    rw [List.all_eq_true]
    intro x hx
    rw [List.all_eq_true]
    intro y _
    rw [returns_compareNames, hnone x hx]
    rfl
  refine ⟨.platform "Cannot read properties of undefined (reading 'localeCompare')", ?_⟩
  simp only [sort, hnever, halways, if_true, Bool.false_eq_true, if_false, compareNames, ha]

/-! ## The sample collation -/

theorem compareChars_swap : ∀ a b : List Char,
    compareChars a b ≤ 0 ↔ 0 ≤ compareChars b a := by
  intro a
  induction a with
  | nil => intro b; cases b <;> simp [compareChars]
  | cons x a ih =>
    intro b
    cases b with
    | nil => simp [compareChars]
    | cons y b =>
      simp only [compareChars]
      split_ifs <;> first | omega | exact ih b

theorem compareChars_trans : ∀ a b c : List Char,
    compareChars a b ≤ 0 → compareChars b c ≤ 0 → compareChars a c ≤ 0 := by
  intro a
  induction a with
  | nil => intro b c _ _; cases c <;> simp [compareChars]
  | cons x a ih =>
    intro b c hab hbc
    cases b with
    | nil => simp [compareChars] at hab
    | cons y b =>
      cases c with
      | nil => simp [compareChars] at hbc
      | cons z c =>
        simp only [compareChars] at hab hbc ⊢
        split_ifs at hab hbc ⊢ <;> first | omega | exact ih b c hab hbc

/-- Comparison by code points is a collation. -/
theorem codePointCompare_collation : Collation codePointCompare :=
  ⟨fun a b => compareChars_swap a.data b.data,
    fun a b c => compareChars_trans a.data b.data c.data⟩

/-! ## The claims -/

/-- C3, as amended: when the submit succeeds and the first terminal status (id
above 2) arrives on attempt `k`, with `1 ≤ k ≤ 10` and all earlier answers
successful and not terminal, `runCode` issues exactly `k` status requests and
does not time out; it shows the decoding of the `k`-th answer when `atob`
decodes the field shown, and `Error: ` followed by the message of the exception
of `atob` when that field is not valid base64. -/
theorem runCode_stops_at_first_terminal (atobMessage : String) (s : State) (lang : Language)
    (status : Nat) (token : String) (polls : Nat → Fetched ExecutionResult)
    (k statusk : Nat) (r : ExecutionResult)
    (hlang : s.language = some lang) (hcode : s.code ≠ "") (hsub : ok status = true)
    (hk : 1 ≤ k) (hk10 : k ≤ 10)
    (hwait : ∀ i, i + 1 < k → isWaiting (polls i) = true)
    (hterm : polls (k - 1) = .response statusk (.ok r))
    (hok : ok statusk = true) (hid : r.status_id > 2) :
    pollCount (runCode atobMessage s (.response status (.ok token)) polls) = k ∧
      runCodeThrown atobMessage s (.response status (.ok token)) polls ≠ some .timedOut ∧
      (applyEvents s (runCode atobMessage s (.response status (.ok token)) polls)).output =
        (match display atobMessage r with
          | .ok text => text
          | .error _ => "Error: " ++ atobMessage) := by
  obtain ⟨hev, hth⟩ := runCode_of_terminal atobMessage s lang status token polls k statusk r
    hlang hcode hsub hk hk10 hwait hterm hok hid
  refine ⟨?_, ?_, ?_⟩
  · rw [hev]
    exact pollCount_run lang s.code s.input token k _ (by simp [pollCount])
  · rw [hth]
    cases hd : display atobMessage r with
    | ok text => simp
    | error e =>
      have hne : e ≠ .timedOut := by
        rw [display_error atobMessage r e hd]
        simp
      simpa using hne
  · rw [hev, applyEvents_run]
    simp only [shownFor]
    cases hd : display atobMessage r with
    | ok text => rfl
    | error e =>
      rw [display_error atobMessage r e hd]
      rfl

/-- C3, the scenario of the specification: statuses 1, 1, 3 with
`stdout = base64("Hello")` give three polls and the text `Hello`. -/
theorem runCode_stops_at_first_terminal_witness :
    pollCount (runCode sampleAtobMessage readyState (.response 201 (.ok "tok"))
        (pollsOf [pending 1, pending 1,
          .response 200 (.ok ⟨3, some "SGVsbG8=", none, none⟩)])) = 3 ∧
      runCodeThrown sampleAtobMessage readyState (.response 201 (.ok "tok"))
        (pollsOf [pending 1, pending 1,
          .response 200 (.ok ⟨3, some "SGVsbG8=", none, none⟩)]) ≠ some .timedOut ∧
      (applyEvents readyState (runCode sampleAtobMessage readyState (.response 201 (.ok "tok"))
        (pollsOf [pending 1, pending 1,
          .response 200 (.ok ⟨3, some "SGVsbG8=", none, none⟩)]))).output = "Hello" :=
  runCode_stops_at_first_terminal sampleAtobMessage readyState ⟨1, some "C"⟩ 201 "tok"
    (pollsOf [pending 1, pending 1, .response 200 (.ok ⟨3, some "SGVsbG8=", none, none⟩)])
    3 200 ⟨3, some "SGVsbG8=", none, none⟩ rfl (by decide) (by decide) (by decide) (by decide)
    (fun i hi => by
      have hi2 : i < 2 := by omega
      interval_cases i <;> rfl)
    rfl (by decide) (by decide)

/-- C3 as stated fails: with statuses 1, 1, 3 and a `stdout` on attempt 3 that is
not valid base64, so that it has no decoding, the text shown is the error
message of the `catch` block. -/
theorem runCode_malformed_base64_counterexample :
    atob "SGVsbG8==" = none ∧
      pollCount (runCode sampleAtobMessage readyState (.response 201 (.ok "tok"))
        (pollsOf [pending 1, pending 1,
          .response 200 (.ok ⟨3, some "SGVsbG8==", none, none⟩)])) = 3 ∧
      (applyEvents readyState (runCode sampleAtobMessage readyState (.response 201 (.ok "tok"))
        (pollsOf [pending 1, pending 1,
          .response 200 (.ok ⟨3, some "SGVsbG8==", none, none⟩)]))).output =
        "Error: The string to be decoded is not correctly encoded." := by
  decide

/-- C1, as amended: for every terminal answer whose `stdout` is present, not
empty and decodable, `runCode` shows exactly the decoding of `stdout`, without
prefix, whatever `stderr` and `compile_output` are. -/
theorem runCode_shows_stdout (atobMessage : String) (s : State) (lang : Language)
    (status : Nat) (token : String) (polls : Nat → Fetched ExecutionResult)
    (k statusk : Nat) (r : ExecutionResult) (encoded text : String)
    (hlang : s.language = some lang) (hcode : s.code ≠ "") (hsub : ok status = true)
    (hk : 1 ≤ k) (hk10 : k ≤ 10)
    (hwait : ∀ i, i + 1 < k → isWaiting (polls i) = true)
    (hterm : polls (k - 1) = .response statusk (.ok r))
    (hok : ok statusk = true) (hid : r.status_id > 2)
    (hstdout : r.stdout = some encoded) (hne : encoded ≠ "")
    (hdec : atob encoded = some text) :
    (applyEvents s (runCode atobMessage s (.response status (.ok token)) polls)).output =
      text := by
  obtain ⟨hev, _⟩ := runCode_of_terminal atobMessage s lang status token polls k statusk r
    hlang hcode hsub hk hk10 hwait hterm hok hid
  rw [hev, applyEvents_run]
  have ht : truthy r.stdout = true := by simp [truthy, hstdout, hne]
  simp only [shownFor, display, ht, if_true]
  simp [atobField, hstdout, hdec]

/-- C1, the scenario of the specification: `stdout = base64("Hello")` shows
`Hello`, here with `stderr` and `compile_output` present as well. -/
theorem runCode_shows_stdout_witness :
    (applyEvents readyState (runCode sampleAtobMessage readyState (.response 201 (.ok "tok"))
      (pollsOf [.response 200
        (.ok ⟨3, some "SGVsbG8=", some "Ym9vbQ==", some "c3ludGF4IGVycm9y"⟩)]))).output =
      "Hello" :=
  runCode_shows_stdout sampleAtobMessage readyState ⟨1, some "C"⟩ 201 "tok"
    (pollsOf [.response 200
      (.ok ⟨3, some "SGVsbG8=", some "Ym9vbQ==", some "c3ludGF4IGVycm9y"⟩)])
    1 200 ⟨3, some "SGVsbG8=", some "Ym9vbQ==", some "c3ludGF4IGVycm9y"⟩ "SGVsbG8=" "Hello"
    rfl (by decide) (by decide) (by decide) (by decide)
    (fun i hi => by omega) rfl (by decide) (by decide) rfl (by decide) (by decide)

/-- C1 as stated fails: a terminal answer whose `stdout` is present but empty
(the encoding of the empty text, which `atob` decodes to the empty text) and
whose `stderr` encodes `boom` shows `Error: boom`, not the decoding of
`stdout`. -/
theorem runCode_stdout_present_counterexample :
    atob "" = some "" ∧
      (applyEvents readyState (runCode sampleAtobMessage readyState (.response 201 (.ok "tok"))
        (pollsOf [.response 200 (.ok ⟨3, some "", some "Ym9vbQ==", none⟩)]))).output ≠ "" ∧
      (applyEvents readyState (runCode sampleAtobMessage readyState (.response 201 (.ok "tok"))
        (pollsOf [.response 200 (.ok ⟨3, some "", some "Ym9vbQ==", none⟩)]))).output =
        "Error: boom" := by
  decide

/-- C2, as amended: for every terminal answer whose `stdout` is absent or empty,
`runCode` shows `Error: ` and the decoded `stderr` when `stderr` is present, not
empty and decodable; otherwise, when `stderr` is absent or empty,
`Compilation Error: ` and the decoded `compile_output` when that is present, not
empty and decodable; and `No output generated.` when all three are absent or
empty. -/
theorem runCode_fallback_chain (atobMessage : String) (s : State) (lang : Language)
    (status : Nat) (token : String) (polls : Nat → Fetched ExecutionResult)
    (k statusk : Nat) (r : ExecutionResult)
    (hlang : s.language = some lang) (hcode : s.code ≠ "") (hsub : ok status = true)
    (hk : 1 ≤ k) (hk10 : k ≤ 10)
    (hwait : ∀ i, i + 1 < k → isWaiting (polls i) = true)
    (hterm : polls (k - 1) = .response statusk (.ok r))
    (hok : ok statusk = true) (hid : r.status_id > 2)
    (hstdout : truthy r.stdout = false) :
    (∀ encoded text, r.stderr = some encoded → encoded ≠ "" → atob encoded = some text →
      (applyEvents s (runCode atobMessage s (.response status (.ok token)) polls)).output =
        "Error: " ++ text) ∧
    (∀ encoded text, truthy r.stderr = false → r.compile_output = some encoded →
      encoded ≠ "" → atob encoded = some text →
      (applyEvents s (runCode atobMessage s (.response status (.ok token)) polls)).output =
        "Compilation Error: " ++ text) ∧
    (truthy r.stderr = false → truthy r.compile_output = false →
      (applyEvents s (runCode atobMessage s (.response status (.ok token)) polls)).output =
        "No output generated.") := by
  obtain ⟨hev, _⟩ := runCode_of_terminal atobMessage s lang status token polls k statusk r
    hlang hcode hsub hk hk10 hwait hterm hok hid
  rw [hev, applyEvents_run]
  refine ⟨?_, ?_, ?_⟩
  · intro encoded text hstderr hne hdec
    have ht : truthy r.stderr = true := by simp [truthy, hstderr, hne]
    simp only [shownFor, display, hstdout, ht, Bool.false_eq_true, if_false, if_true]
    simp [atobField, hstderr, hdec]
  · intro encoded text hstderr hco hne hdec
    have ht : truthy r.compile_output = true := by simp [truthy, hco, hne]
    simp only [shownFor, display, hstdout, hstderr, ht, Bool.false_eq_true, if_false, if_true]
    simp [atobField, hco, hdec]
  · intro hstderr hco
    simp only [shownFor, display, hstdout, hstderr, hco, Bool.false_eq_true, if_false]

/-- C2, the scenarios of the specification: `stderr = base64("boom")` shows
`Error: boom`; only `compile_output = base64("syntax error")` shows
`Compilation Error: syntax error`; no field at all shows `No output generated.` -/
theorem runCode_fallback_chain_witness :
    (applyEvents readyState (runCode sampleAtobMessage readyState (.response 201 (.ok "tok"))
      (pollsOf [.response 200 (.ok ⟨6, none, some "Ym9vbQ==", none⟩)]))).output =
        "Error: boom" ∧
    (applyEvents readyState (runCode sampleAtobMessage readyState (.response 201 (.ok "tok"))
      (pollsOf [.response 200 (.ok ⟨6, none, none, some "c3ludGF4IGVycm9y"⟩)]))).output =
        "Compilation Error: syntax error" ∧
    (applyEvents readyState (runCode sampleAtobMessage readyState (.response 201 (.ok "tok"))
      (pollsOf [.response 200 (.ok ⟨6, none, none, none⟩)]))).output =
        "No output generated." :=
  ⟨(runCode_fallback_chain sampleAtobMessage readyState ⟨1, some "C"⟩ 201 "tok"
      (pollsOf [.response 200 (.ok ⟨6, none, some "Ym9vbQ==", none⟩)])
      1 200 ⟨6, none, some "Ym9vbQ==", none⟩
      rfl (by decide) (by decide) (by decide) (by decide)
      (fun i hi => by omega) rfl (by decide) (by decide) rfl).1
      "Ym9vbQ==" "boom" rfl (by decide) (by decide),
    (runCode_fallback_chain sampleAtobMessage readyState ⟨1, some "C"⟩ 201 "tok"
      (pollsOf [.response 200 (.ok ⟨6, none, none, some "c3ludGF4IGVycm9y"⟩)])
      1 200 ⟨6, none, none, some "c3ludGF4IGVycm9y"⟩
      rfl (by decide) (by decide) (by decide) (by decide)
      (fun i hi => by omega) rfl (by decide) (by decide) rfl).2.1
      "c3ludGF4IGVycm9y" "syntax error" rfl rfl (by decide) (by decide),
    (runCode_fallback_chain sampleAtobMessage readyState ⟨1, some "C"⟩ 201 "tok"
      (pollsOf [.response 200 (.ok ⟨6, none, none, none⟩)])
      1 200 ⟨6, none, none, none⟩
      rfl (by decide) (by decide) (by decide) (by decide)
      (fun i hi => by omega) rfl (by decide) (by decide) rfl).2.2 rfl rfl⟩

/-- C2 as stated fails: a terminal answer without `stdout` whose `stderr` is
present but empty and whose `compile_output` encodes `syntax error` shows
`Compilation Error: syntax error`, not `Error: ` followed by the decoding of
`stderr`. -/
theorem runCode_stderr_present_counterexample :
    atob "" = some "" ∧
      (applyEvents readyState (runCode sampleAtobMessage readyState (.response 201 (.ok "tok"))
        (pollsOf [.response 200 (.ok ⟨6, none, some "", some "c3ludGF4IGVycm9y"⟩)]))).output ≠
        "Error: " ++ "" ∧
      (applyEvents readyState (runCode sampleAtobMessage readyState (.response 201 (.ok "tok"))
        (pollsOf [.response 200 (.ok ⟨6, none, some "", some "c3ludGF4IGVycm9y"⟩)]))).output =
        "Compilation Error: syntax error" := by
  decide

/-- C4, as amended: when the submit succeeds and the first 10 status answers are
successful with status id at most 2, `runCode` issues exactly 10 status requests,
the run fails by the time-out, and the text shown is
`Error: Timed out waiting for code execution`. -/
theorem runCode_times_out (atobMessage : String) (s : State) (lang : Language)
    (status : Nat) (token : String) (polls : Nat → Fetched ExecutionResult)
    (hlang : s.language = some lang) (hcode : s.code ≠ "") (hsub : ok status = true)
    (hwait : ∀ i, i < 10 → isWaiting (polls i) = true) :
    pollCount (runCode atobMessage s (.response status (.ok token)) polls) = 10 ∧
      runCodeThrown atobMessage s (.response status (.ok token)) polls = some .timedOut ∧
      (applyEvents s (runCode atobMessage s (.response status (.ok token)) polls)).output =
        "Error: Timed out waiting for code execution" := by
  obtain ⟨result', hloop⟩ := pollLoop_exhausted token polls maxAttempts 0 none
    (fun i hi => by rw [Nat.zero_add]; exact hwait i hi)
  rw [Nat.zero_add] at hloop
  have hev : runCode atobMessage s (.response status (.ok token)) polls =
      .setIsRunning true :: .setOutput "" :: .submit lang.id s.code s.input ::
        (pollEvents token 10 ++
          [.setOutput "Error: Timed out waiting for code execution", .setIsRunning false]) := by
    simp only [runCode, hlang, runCodeTry, hcode, hsub, hloop, if_false, if_true,
      Bool.not_true, Bool.false_eq_true, catchBlock]
    simp [maxAttempts, Thrown.message]
  refine ⟨?_, ?_, ?_⟩
  · rw [hev]
    exact pollCount_run lang s.code s.input token 10 _ (by simp [pollCount])
  · simp only [runCodeThrown, hlang, runCodeTry, hcode, hsub, hloop, if_false, if_true,
      Bool.not_true, Bool.false_eq_true]
  · rw [hev, applyEvents_run]

/-- C4, the scenario of the specification: ten answers with status 1. -/
theorem runCode_times_out_witness :
    pollCount (runCode sampleAtobMessage readyState (.response 201 (.ok "tok"))
        (pollsOf (List.replicate 10 (pending 1)))) = 10 ∧
      runCodeThrown sampleAtobMessage readyState (.response 201 (.ok "tok"))
        (pollsOf (List.replicate 10 (pending 1))) = some .timedOut ∧
      (applyEvents readyState (runCode sampleAtobMessage readyState (.response 201 (.ok "tok"))
        (pollsOf (List.replicate 10 (pending 1))))).output =
        "Error: Timed out waiting for code execution" :=
  runCode_times_out sampleAtobMessage readyState ⟨1, some "C"⟩ 201 "tok"
    (pollsOf (List.replicate 10 (pending 1))) rfl (by decide) (by decide)
    (fun i hi => by interval_cases i <;> rfl)

/-- C4 as stated fails: with ten answers of status 1 the text shown is not
`Timed out waiting for code execution.` -/
theorem runCode_timeout_text_counterexample :
    (applyEvents readyState (runCode sampleAtobMessage readyState (.response 201 (.ok "tok"))
      (pollsOf (List.replicate 10 (pending 1))))).output ≠
      "Timed out waiting for code execution." := by
  decide

/-- C5: when no language is selected, whatever the code and the input, `runCode`
issues no request and the text shown is `Please select a language first.` -/
theorem runCode_without_language (atobMessage : String) (s : State)
    (submission : Fetched String) (polls : Nat → Fetched ExecutionResult)
    (hlang : s.language = none) :
    requestCount (runCode atobMessage s submission polls) = 0 ∧
      runCode atobMessage s submission polls =
        [.setOutput "Please select a language first."] ∧
      (applyEvents s (runCode atobMessage s submission polls)).output =
        "Please select a language first." := by
  have hev : runCode atobMessage s submission polls =
      [.setOutput "Please select a language first."] := by
    simp only [runCode, hlang]
  rw [hev]
  exact ⟨rfl, rfl, rfl⟩

/-- C5 at a state with code and input typed but no language. -/
theorem runCode_without_language_witness :
    requestCount (runCode sampleAtobMessage { initialState with code := "x", input := "y" }
        (.response 201 (.ok "tok")) (pollsOf [])) = 0 ∧
      runCode sampleAtobMessage { initialState with code := "x", input := "y" }
        (.response 201 (.ok "tok")) (pollsOf []) =
        [.setOutput "Please select a language first."] ∧
      (applyEvents { initialState with code := "x", input := "y" }
        (runCode sampleAtobMessage { initialState with code := "x", input := "y" }
          (.response 201 (.ok "tok")) (pollsOf []))).output =
        "Please select a language first." :=
  runCode_without_language sampleAtobMessage { initialState with code := "x", input := "y" }
    (.response 201 (.ok "tok")) (pollsOf []) rfl

/-- C6, as amended: for every selected language and every input, when the code
is the empty string `runCode` issues no request and the text shown is `Error: `
followed by the message `Your Code is Empty , Type Something and then try`. -/
theorem runCode_empty_code (atobMessage : String) (s : State) (lang : Language)
    (submission : Fetched String) (polls : Nat → Fetched ExecutionResult)
    (hlang : s.language = some lang) (hcode : s.code = "") :
    requestCount (runCode atobMessage s submission polls) = 0 ∧
      runCodeThrown atobMessage s submission polls = some .emptyCode ∧
      (applyEvents s (runCode atobMessage s submission polls)).output =
        "Error: " ++ "Your Code is Empty , Type Something and then try" := by
  have hev : runCode atobMessage s submission polls =
      [.setIsRunning true, .setOutput "",
        .setOutput ("Error: " ++ "Your Code is Empty , Type Something and then try"),
        .setIsRunning false] := by
    simp only [runCode, hlang, runCodeTry, hcode, if_true, catchBlock, Thrown.message,
      List.nil_append, List.cons_append]
  refine ⟨?_, ?_, ?_⟩
  · rw [hev]; rfl
  · simp only [runCodeThrown, hlang, runCodeTry, hcode, if_true]
  · rw [hev]; rfl

/-- C6 at a state with language `C` selected and no code. -/
theorem runCode_empty_code_witness :
    requestCount (runCode sampleAtobMessage { readyState with code := "" }
        (.response 201 (.ok "tok")) (pollsOf [])) = 0 ∧
      runCodeThrown sampleAtobMessage { readyState with code := "" }
        (.response 201 (.ok "tok")) (pollsOf []) = some .emptyCode ∧
      (applyEvents { readyState with code := "" }
        (runCode sampleAtobMessage { readyState with code := "" }
          (.response 201 (.ok "tok")) (pollsOf []))).output =
        "Error: " ++ "Your Code is Empty , Type Something and then try" :=
  runCode_empty_code sampleAtobMessage { readyState with code := "" } ⟨1, some "C"⟩
    (.response 201 (.ok "tok")) (pollsOf []) rfl rfl

/-- C6 as stated fails: with empty code the text shown is not the message of the
error verbatim. -/
theorem runCode_empty_code_counterexample :
    (Thrown.emptyCode).message = "Your Code is Empty , Type Something and then try" ∧
      (applyEvents { readyState with code := "" }
        (runCode sampleAtobMessage { readyState with code := "" }
          (.response 201 (.ok "tok")) (pollsOf []))).output ≠
        "Your Code is Empty , Type Something and then try" := by
  decide

/-- C7: with a language selected and code that is not empty, a submit response
with a non-success status `c` gives no status request and the text
`Error: HTTP error! status: c`; and when the submit succeeds and the first
non-success status `c` occurs on attempt `k` of the loop, after answers that are
successful and not terminal, `runCode` issues exactly `k` status requests and
shows `Error: HTTP error! status: c`. -/
theorem runCode_http_failure (atobMessage : String) (s : State) (lang : Language)
    (hlang : s.language = some lang) (hcode : s.code ≠ "") :
    (∀ (c : Nat) (body : Except String String) (polls : Nat → Fetched ExecutionResult),
      ok c = false →
        pollCount (runCode atobMessage s (.response c body) polls) = 0 ∧
        (applyEvents s (runCode atobMessage s (.response c body) polls)).output =
          "Error: HTTP error! status: " ++ toString c) ∧
    (∀ (status : Nat) (token : String) (polls : Nat → Fetched ExecutionResult)
      (k c : Nat) (body : Except String ExecutionResult),
      ok status = true → 1 ≤ k → k ≤ 10 →
      (∀ i, i + 1 < k → isWaiting (polls i) = true) →
      polls (k - 1) = .response c body → ok c = false →
        pollCount (runCode atobMessage s (.response status (.ok token)) polls) = k ∧
        (applyEvents s (runCode atobMessage s (.response status (.ok token)) polls)).output =
          "Error: HTTP error! status: " ++ toString c) := by
  constructor
  · intro c body polls hc
    have hev : runCode atobMessage s (.response c body) polls =
        [.setIsRunning true, .setOutput "", .submit lang.id s.code s.input,
          .setOutput ("Error: HTTP error! status: " ++ toString c), .setIsRunning false] := by
      simp only [runCode, hlang, runCodeTry, hcode, hc, if_false, if_true, Bool.not_false,
        catchBlock, Thrown.message, List.nil_append, List.cons_append, http_error_text]
    rw [hev]
    exact ⟨rfl, rfl⟩
  · intro status token polls k c body hsub hk hk10 hwait hfail hc
    have hloop : pollLoop token polls maxAttempts 0 none =
        (pollEvents token k, .error (.httpError c)) := by
      have h := pollLoop_http_error token polls (k - 1) maxAttempts 0 none c body
        (by simp only [maxAttempts]; omega)
        (fun i hi => by rw [Nat.zero_add]; exact hwait i (by omega))
        (by rw [Nat.zero_add]; exact hfail) hc
      rw [show k - 1 + 1 = k by omega] at h
      exact h
    have hev : runCode atobMessage s (.response status (.ok token)) polls =
        .setIsRunning true :: .setOutput "" :: .submit lang.id s.code s.input ::
          (pollEvents token k ++
            [.setOutput ("Error: HTTP error! status: " ++ toString c),
              .setIsRunning false]) := by
      simp only [runCode, hlang, runCodeTry, hcode, hsub, hloop, if_false,
        Bool.not_true, Bool.false_eq_true, catchBlock, Thrown.message, http_error_text]
      simp
    rw [hev, applyEvents_run]
    exact ⟨pollCount_run lang s.code s.input token k _ (by simp [pollCount]), rfl⟩

/-- C7 at concrete answers: a submit answered 500, and a submit answered 201
followed by a waiting answer and an answer 429 on attempt 2. -/
theorem runCode_http_failure_witness :
    (pollCount (runCode sampleAtobMessage readyState (.response 500 (.error "no body"))
        (pollsOf [])) = 0 ∧
      (applyEvents readyState (runCode sampleAtobMessage readyState
        (.response 500 (.error "no body")) (pollsOf []))).output =
        "Error: HTTP error! status: " ++ toString 500) ∧
    (pollCount (runCode sampleAtobMessage readyState (.response 201 (.ok "tok"))
        (pollsOf [pending 1, .response 429 (.error "no body")])) = 2 ∧
      (applyEvents readyState (runCode sampleAtobMessage readyState (.response 201 (.ok "tok"))
        (pollsOf [pending 1, .response 429 (.error "no body")]))).output =
        "Error: HTTP error! status: " ++ toString 429) :=
  ⟨(runCode_http_failure sampleAtobMessage readyState ⟨1, some "C"⟩ rfl (by decide)).1
      500 (.error "no body") (pollsOf []) (by decide),
    (runCode_http_failure sampleAtobMessage readyState ⟨1, some "C"⟩ rfl (by decide)).2
      201 "tok" (pollsOf [pending 1, .response 429 (.error "no body")]) 2 429
      (.error "no body") (by decide) (by decide) (by decide)
      (fun i hi => by
        have hi0 : i = 0 := by omega
        subst hi0
        rfl)
      rfl (by decide)⟩

/-- C10, as amended: in a run with a language selected, on every path, the events
are: busy flag set, output cleared to the empty string, requests and pauses only,
then exactly one write of the output (the decoding of a result, or `Error: ` and
the message of the error thrown), then busy flag reset; the busy flag is false
when the run has finished.  In a run with no language selected the output is
written once, without being cleared, and the busy flag is left as it was. -/
theorem runCode_output_effect (atobMessage : String) (s : State)
    (submission : Fetched String) (polls : Nat → Fetched ExecutionResult) :
    (∀ lang, s.language = some lang →
      ∃ requests final,
        requests.all isRequest = true ∧
        runCode atobMessage s submission polls =
          .setIsRunning true :: .setOutput "" ::
            (requests ++ [.setOutput final, .setIsRunning false]) ∧
        outputsWritten (runCode atobMessage s submission polls) = ["", final] ∧
        ((∃ e, runCodeThrown atobMessage s submission polls = some e ∧
            final = "Error: " ++ e.message) ∨
          (runCodeThrown atobMessage s submission polls = none ∧
            ∃ r, display atobMessage r = .ok final)) ∧
        (applyEvents s (runCode atobMessage s submission polls)).output = final ∧
        (applyEvents s (runCode atobMessage s submission polls)).isRunning = false) ∧
    (s.language = none →
      outputsWritten (runCode atobMessage s submission polls) =
        ["Please select a language first."] ∧
      (applyEvents s (runCode atobMessage s submission polls)).isRunning = s.isRunning) := by
  constructor
  · intro lang hlang
    obtain ⟨requests, hreq, hshape⟩ := runCodeTry_shape atobMessage s lang submission polls
    have hstate : ∀ final, applyEvents s (.setIsRunning true :: .setOutput "" ::
        (requests ++ [.setOutput final, .setIsRunning false])) =
        { s with output := final, isRunning := false } := by
      intro final
      have h : applyEvents s (.setIsRunning true :: .setOutput "" ::
          (requests ++ [.setOutput final, .setIsRunning false])) =
          applyEvents (applyEvents { s with isRunning := true, output := "" } requests)
            [.setOutput final, .setIsRunning false] := by
        rw [← applyEvents_append]
        rfl
      rw [h, applyEvents_of_requests _ _ hreq]
      rfl
    have hout : ∀ final, outputsWritten (.setIsRunning true :: .setOutput "" ::
        (requests ++ [.setOutput final, .setIsRunning false])) = ["", final] := by
      intro final
      have h := outputsWritten_of_requests requests hreq
      simp only [outputsWritten] at h
      simp [outputsWritten, List.filterMap_append, h]
    rcases hshape with ⟨e, he⟩ | ⟨r, text, hd, he⟩
    · have hev : runCode atobMessage s submission polls =
          .setIsRunning true :: .setOutput "" ::
            (requests ++ [.setOutput ("Error: " ++ e.message), .setIsRunning false]) := by
        simp [runCode, hlang, he, catchBlock]
      refine ⟨requests, "Error: " ++ e.message, hreq, hev, ?_, ?_, ?_, ?_⟩
      · rw [hev]; exact hout _
      · exact Or.inl ⟨e, by simp [runCodeThrown, hlang, he], rfl⟩
      · rw [hev, hstate]
      · rw [hev, hstate]
    · have hev : runCode atobMessage s submission polls =
          .setIsRunning true :: .setOutput "" ::
            (requests ++ [.setOutput text, .setIsRunning false]) := by
        simp [runCode, hlang, he, catchBlock]
      refine ⟨requests, text, hreq, hev, ?_, ?_, ?_, ?_⟩
      · rw [hev]; exact hout _
      · exact Or.inr ⟨by simp [runCodeThrown, hlang, he], r, hd⟩
      · rw [hev, hstate]
      · rw [hev, hstate]
  · intro hlang
    have hev : runCode atobMessage s submission polls =
        [.setOutput "Please select a language first."] := by
      simp only [runCode, hlang]
    rw [hev]
    exact ⟨rfl, rfl⟩

/-- C10 at concrete runs: a successful run from `readyState` writes the output
twice, first the empty string; a run from the initial state leaves the busy
flag as it was. -/
theorem runCode_output_effect_witness :
    (∃ requests final,
        requests.all isRequest = true ∧
        runCode sampleAtobMessage readyState (.response 201 (.ok "tok"))
            (pollsOf [.response 200 (.ok ⟨3, some "SGVsbG8=", none, none⟩)]) =
          .setIsRunning true :: .setOutput "" ::
            (requests ++ [.setOutput final, .setIsRunning false]) ∧
        outputsWritten (runCode sampleAtobMessage readyState (.response 201 (.ok "tok"))
            (pollsOf [.response 200 (.ok ⟨3, some "SGVsbG8=", none, none⟩)])) = ["", final] ∧
        ((∃ e, runCodeThrown sampleAtobMessage readyState (.response 201 (.ok "tok"))
              (pollsOf [.response 200 (.ok ⟨3, some "SGVsbG8=", none, none⟩)]) = some e ∧
            final = "Error: " ++ e.message) ∨
          (runCodeThrown sampleAtobMessage readyState (.response 201 (.ok "tok"))
              (pollsOf [.response 200 (.ok ⟨3, some "SGVsbG8=", none, none⟩)]) = none ∧
            ∃ r, display sampleAtobMessage r = .ok final)) ∧
        (applyEvents readyState (runCode sampleAtobMessage readyState
          (.response 201 (.ok "tok"))
          (pollsOf [.response 200 (.ok ⟨3, some "SGVsbG8=", none, none⟩)]))).output = final ∧
        (applyEvents readyState (runCode sampleAtobMessage readyState
          (.response 201 (.ok "tok"))
          (pollsOf [.response 200 (.ok ⟨3, some "SGVsbG8=", none, none⟩)]))).isRunning
            = false) ∧
      (applyEvents initialState (runCode sampleAtobMessage initialState
        (.response 201 (.ok "tok")) (pollsOf []))).isRunning = initialState.isRunning :=
  ⟨(runCode_output_effect sampleAtobMessage readyState (.response 201 (.ok "tok"))
      (pollsOf [.response 200 (.ok ⟨3, some "SGVsbG8=", none, none⟩)])).1 ⟨1, some "C"⟩ rfl,
    ((runCode_output_effect sampleAtobMessage initialState (.response 201 (.ok "tok"))
      (pollsOf [])).2 rfl).2⟩

/-- C10 as stated fails: in a run with no language selected the only write to the
output is the message; the output is not first cleared to the empty string. -/
theorem runCode_output_not_cleared_counterexample :
    outputsWritten (runCode sampleAtobMessage initialState (.response 201 (.ok "tok"))
        (pollsOf [])) = ["Please select a language first."] ∧
      (outputsWritten (runCode sampleAtobMessage initialState (.response 201 (.ok "tok"))
        (pollsOf []))).head? ≠ some "" := by
  decide

/-- C8: for every successful languages response whose entries all have a name,
under a collation `localeCompare` and whatever the engine, the stored catalog is
a rearrangement of the response sorted by name, and the language selected is the
first entry of the stored catalog, which precedes or equals every entry of the
response. -/
theorem fetchLanguages_sorts_catalog (localeCompare : String → String → Int)
    (engine : List Language → Except Thrown (List Language))
    (hcoll : Collation localeCompare) (s : State) (status : Nat) (data : List Language)
    (hok : ok status = true) (hnamed : ∀ e ∈ data, e.name ≠ none) :
    List.Perm
        (applyEvents s (fetchLanguages localeCompare engine
          (.response status (.ok (.array data))))).languages data ∧
      List.Sorted (nameLe localeCompare)
        (applyEvents s (fetchLanguages localeCompare engine
          (.response status (.ok (.array data))))).languages ∧
      (applyEvents s (fetchLanguages localeCompare engine
          (.response status (.ok (.array data))))).language =
        (applyEvents s (fetchLanguages localeCompare engine
          (.response status (.ok (.array data))))).languages.head? ∧
      (∀ first, (applyEvents s (fetchLanguages localeCompare engine
          (.response status (.ok (.array data))))).language = some first →
        first ∈ data ∧ ∀ e ∈ data, nameLe localeCompare first e) := by
  obtain ⟨sorted, hsort, hperm, hsorted⟩ :=
    sort_named localeCompare hcoll engine data hnamed
  have hstate : applyEvents s (fetchLanguages localeCompare engine
      (.response status (.ok (.array data)))) =
      { s with languages := sorted, language := sorted.head? } := by
    simp [fetchLanguages, sortedLanguages, hok, hsort, applyEvents, applyEvent]
  rw [hstate]
  refine ⟨hperm, hsorted, rfl, ?_⟩
  intro first hfirst
  cases sorted with
  | nil => simp at hfirst
  | cons c l =>
    simp only [List.head?_cons, Option.some.injEq] at hfirst
    subst hfirst
    refine ⟨hperm.subset (List.mem_cons_self _ _), ?_⟩
    intro e he
    rcases List.mem_cons.1 (hperm.symm.subset he) with rfl | hl
    · have h := hcoll.1 (e.name.getD "undefined") (e.name.getD "undefined")
      unfold nameLe
      omega
    · exact List.rel_of_sorted_cons hsorted e hl

/-- C8, the scenario of the specification: the response `Python`, `C` gives the
catalog `C`, `Python` and the selection `C`. -/
theorem fetchLanguages_sorts_catalog_witness :
    (List.Perm
        (applyEvents initialState (fetchLanguages codePointCompare sampleEngine (.response 200
          (.ok (.array [⟨2, some "Python"⟩, ⟨1, some "C"⟩]))))).languages
        [⟨2, some "Python"⟩, ⟨1, some "C"⟩] ∧
      List.Sorted (nameLe codePointCompare)
        (applyEvents initialState (fetchLanguages codePointCompare sampleEngine (.response 200
          (.ok (.array [⟨2, some "Python"⟩, ⟨1, some "C"⟩]))))).languages ∧
      (applyEvents initialState (fetchLanguages codePointCompare sampleEngine (.response 200
          (.ok (.array [⟨2, some "Python"⟩, ⟨1, some "C"⟩]))))).language =
        (applyEvents initialState (fetchLanguages codePointCompare sampleEngine (.response 200
          (.ok (.array [⟨2, some "Python"⟩, ⟨1, some "C"⟩]))))).languages.head? ∧
      (∀ first, (applyEvents initialState (fetchLanguages codePointCompare sampleEngine
          (.response 200
            (.ok (.array [⟨2, some "Python"⟩, ⟨1, some "C"⟩]))))).language = some first →
        first ∈ [(⟨2, some "Python"⟩ : Language), ⟨1, some "C"⟩] ∧
          ∀ e ∈ [(⟨2, some "Python"⟩ : Language), ⟨1, some "C"⟩],
            nameLe codePointCompare first e)) ∧
    (applyEvents initialState (fetchLanguages codePointCompare sampleEngine (.response 200
        (.ok (.array [⟨2, some "Python"⟩, ⟨1, some "C"⟩]))))).languages =
      [⟨1, some "C"⟩, ⟨2, some "Python"⟩] ∧
    (applyEvents initialState (fetchLanguages codePointCompare sampleEngine (.response 200
        (.ok (.array [⟨2, some "Python"⟩, ⟨1, some "C"⟩]))))).language =
      some ⟨1, some "C"⟩ :=
  ⟨fetchLanguages_sorts_catalog codePointCompare sampleEngine codePointCompare_collation
      initialState 200 [⟨2, some "Python"⟩, ⟨1, some "C"⟩] (by decide) (by decide),
    by decide, by decide⟩

/-- C9, as amended: starting with an empty catalog and no selection, whenever the
fetch of the languages throws, the catalog stays empty, no language is selected
and the output is `Error fetching languages. Please try again later.`; a later
`runCode`, whatever was typed, issues no request and shows
`Please select a language first.`  Whatever the engine, the fetch throws on a
rejected request, on a non-success status, on an unreadable body, on a body that
is not a list, and on a list of two or more entries none of which has a name;
it does not throw on a list of fewer than two entries, named or not. -/
theorem fetchLanguages_failure (localeCompare : String → String → Int)
    (engine : List Language → Except Thrown (List Language)) (s : State)
    (hcatalog : s.languages = []) (hselected : s.language = none) :
    (∀ response, fetchFails localeCompare engine response = true →
      (applyEvents s (fetchLanguages localeCompare engine response)).languages = [] ∧
      (applyEvents s (fetchLanguages localeCompare engine response)).language = none ∧
      (applyEvents s (fetchLanguages localeCompare engine response)).output =
        "Error fetching languages. Please try again later." ∧
      ∀ (atobMessage code input : String) (submission : Fetched String)
        (polls : Nat → Fetched ExecutionResult),
        requestCount (runCode atobMessage
          { applyEvents s (fetchLanguages localeCompare engine response) with
            code := code, input := input } submission polls) = 0 ∧
        (applyEvents
          { applyEvents s (fetchLanguages localeCompare engine response) with
            code := code, input := input }
          (runCode atobMessage
            { applyEvents s (fetchLanguages localeCompare engine response) with
              code := code, input := input } submission polls)).output =
          "Please select a language first.") ∧
    (∀ message, fetchFails localeCompare engine (.rejected message) = true) ∧
    (∀ status body, ok status = false →
      fetchFails localeCompare engine (.response status body) = true) ∧
    (∀ status message,
      fetchFails localeCompare engine (.response status (.error message)) = true) ∧
    (∀ status, fetchFails localeCompare engine (.response status (.ok .notArray)) = true) ∧
    (∀ status a b rest, (∀ e ∈ a :: b :: rest, e.name = none) →
      fetchFails localeCompare engine
        (.response status (.ok (.array (a :: b :: rest)))) = true) ∧
    (∀ status data, ok status = true → data.length < 2 →
      fetchFails localeCompare engine (.response status (.ok (.array data))) = false) := by
  refine ⟨?_, ?_, ?_, ?_, ?_, ?_, ?_⟩
  · intro response hfail
    have hstate : applyEvents s (fetchLanguages localeCompare engine response) =
        { s with output := "Error fetching languages. Please try again later." } := by
      unfold fetchFails at hfail
      cases hs : sortedLanguages localeCompare engine response with
      | ok sorted => rw [hs] at hfail; cases hfail
      | error e => simp [fetchLanguages, hs, applyEvents, applyEvent]
    rw [hstate]
    refine ⟨hcatalog, hselected, rfl, ?_⟩
    intro atobMessage code input submission polls
    have hev : runCode atobMessage
        { code := code, input := input,
          output := "Error fetching languages. Please try again later.",
          languages := s.languages, language := s.language, isRunning := s.isRunning,
          isDropdownOpen := s.isDropdownOpen } submission polls =
        [.setOutput "Please select a language first."] := by
      simp only [runCode, hselected]
    exact ⟨by rw [hev]; rfl, by rw [hev]; rfl⟩
  · intro message
    rfl
  · intro status body hok
    simp [fetchFails, sortedLanguages, hok]
  · intro status message
    by_cases hok : ok status = true <;> simp [fetchFails, sortedLanguages, hok]
  · intro status
    by_cases hok : ok status = true <;> simp [fetchFails, sortedLanguages, hok]
  · intro status a b rest hnone
    obtain ⟨e, he⟩ := sort_nameless localeCompare engine a b rest hnone
    by_cases hok : ok status = true <;> simp [fetchFails, sortedLanguages, hok, he]
  · intro status data hok hlen
    match data, hlen with
    | [], _ => simp [fetchFails, sortedLanguages, hok, sort]
    | [a], _ => simp [fetchFails, sortedLanguages, hok, sort]
    | a :: b :: rest, hlen =>
      simp only [List.length_cons] at hlen
      omega

/-- C9 at concrete failures: a response with status 503, and a list of two
entries without a name. -/
theorem fetchLanguages_failure_witness :
    ((applyEvents initialState (fetchLanguages codePointCompare sampleEngine
        (.response 503 (.error "no body")))).languages = [] ∧
      (applyEvents initialState (fetchLanguages codePointCompare sampleEngine
        (.response 503 (.error "no body")))).language = none ∧
      (applyEvents initialState (fetchLanguages codePointCompare sampleEngine
        (.response 503 (.error "no body")))).output =
        "Error fetching languages. Please try again later." ∧
      ∀ (atobMessage code input : String) (submission : Fetched String)
        (polls : Nat → Fetched ExecutionResult),
        requestCount (runCode atobMessage
          { applyEvents initialState (fetchLanguages codePointCompare sampleEngine
              (.response 503 (.error "no body"))) with
            code := code, input := input } submission polls) = 0 ∧
        (applyEvents
          { applyEvents initialState (fetchLanguages codePointCompare sampleEngine
              (.response 503 (.error "no body"))) with
            code := code, input := input }
          (runCode atobMessage
            { applyEvents initialState (fetchLanguages codePointCompare sampleEngine
                (.response 503 (.error "no body"))) with
              code := code, input := input } submission polls)).output =
          "Please select a language first.") ∧
    fetchFails codePointCompare sampleEngine
      (.response 200 (.ok (.array [⟨1, none⟩, ⟨2, none⟩]))) = true :=
  ⟨(fetchLanguages_failure codePointCompare sampleEngine initialState rfl rfl).1
      (.response 503 (.error "no body")) (by decide),
    (fetchLanguages_failure codePointCompare sampleEngine initialState rfl rfl).2.2.2.2.2.1
      200 ⟨1, none⟩ ⟨2, none⟩ [] (by decide)⟩

/-- C9 as stated fails: a response whose list has one entry, without a name, is
not a failure: the catalog holds that entry, it is selected, the output is not
the message, and a later `runCode` issues a submit request. -/
theorem fetchLanguages_nameless_entry_counterexample :
    (applyEvents initialState (fetchLanguages codePointCompare sampleEngine
        (.response 200 (.ok (.array [⟨1, none⟩]))))).languages = [⟨1, none⟩] ∧
      (applyEvents initialState (fetchLanguages codePointCompare sampleEngine
        (.response 200 (.ok (.array [⟨1, none⟩]))))).language = some ⟨1, none⟩ ∧
      (applyEvents initialState (fetchLanguages codePointCompare sampleEngine
        (.response 200 (.ok (.array [⟨1, none⟩]))))).output ≠
        "Error fetching languages. Please try again later." ∧
      runCode sampleAtobMessage
        { applyEvents initialState (fetchLanguages codePointCompare sampleEngine
            (.response 200 (.ok (.array [⟨1, none⟩])))) with code := "x" }
        (.response 500 (.error "no body")) (pollsOf []) =
        [.setIsRunning true, .setOutput "", .submit 1 "x" "",
          .setOutput "Error: HTTP error! status: 500", .setIsRunning false] := by
  decide

end Playground
